import Mathlib

/-!
Verification development for the KantoCollect inventory tracker.

Strings are modelled as lists of characters. Python semantics are embedded as
executable Lean functions: regular-expression searches are hand-compiled into
scanners over character lists (the patterns involved are simple enough that
greedy matching coincides with backtracking search), machine strings compare by
code point, and whitespace handling follows ASCII. Unicode-only behaviour
(NFKD compatibility decompositions, non-ASCII case folding, unicode digits in
Python regex classes) is outside the model: NFKD is the identity on ASCII and
the ascii/ignore encode step is modelled as dropping non-ASCII characters.
-/

/-- Character strings, as Python strings restricted to their character sequence. -/
abbrev Str := List Char

/-- Coerce a Lean string literal to the model's string type. -/
def strOf (s : String) : Str := s.toList

/-- Whitespace characters of Python str.split / str.strip (ASCII fragment). -/
def isWsChar (c : Char) : Bool :=
  c == ' ' || c == '\t' || c == '\n' || c == '\r' || c == '\x0b' || c == '\x0c'

/-- Word characters of the regex class backslash-w (ASCII fragment). -/
def isWordChar (c : Char) : Bool := c.isAlpha || c.isDigit || c == '_'

/-- Characters kept by the reporting normalizer's character class a-z, 0-9, hash. -/
def isKeyChar (c : Char) : Bool :=
  (97 ≤ c.toNat && c.toNat ≤ 122) || c.isDigit || c == '#'

/-- Python str.lower, ASCII fragment. -/
def lower_str (s : Str) : Str := s.map Char.toLower

/-- Embeds NFKD normalization followed by encode ascii/ignore: on ASCII input
NFKD is the identity, and the encode step drops all non-ASCII characters. -/
def ascii_ignore (s : Str) : Str := s.filter (fun c => c.toNat < 128)

/-- Python str.strip (drop leading and trailing whitespace). -/
def strip_ws (s : Str) : Str :=
  ((s.dropWhile isWsChar).reverse.dropWhile isWsChar).reverse

/-- State of the whitespace-collapsing scanner: before any token, inside a
token, or between tokens with a pending separator. -/
inductive CwState where
  | start : CwState
  | tok : CwState
  | brk : CwState
deriving DecidableEq

/-- Scanner for Python's space-join of str.split: drops leading and trailing
whitespace and replaces every interior whitespace run with a single space. -/
def cwGo : CwState → Str → Str
  | _, [] => []
  | st, c :: cs =>
    if isWsChar c then
      match st with
      | .start => cwGo .start cs
      | _ => cwGo .brk cs
    else
      match st with
      | .brk => ' ' :: c :: cwGo .tok cs
      | _ => c :: cwGo .tok cs

/-- Python's space-join of str.split with no arguments. -/
def collapse_ws (s : Str) : Str := cwGo .start s

/-- State of the non-key-run scanner: whether the scanner is inside a run of
replaced characters whose single space was already emitted. -/
inductive SnkState where
  | out : SnkState
  | run : SnkState
deriving DecidableEq

/-- Scanner for the regex substitution that maps every maximal run of
characters outside a-z, 0-9, hash to one space. -/
def snkGo : SnkState → Str → Str
  | _, [] => []
  | st, c :: cs =>
    if isKeyChar c then c :: snkGo .out cs
    else
      match st with
      | .out => ' ' :: snkGo .run cs
      | .run => snkGo .run cs

/-- Replace each maximal run of non-key characters with a single space. -/
def sub_nonkey (s : Str) : Str := snkGo .out s

/-- Python substring operator: pat in hay. -/
def contains_sub : Str → Str → Bool
  | [], pat => pat.isEmpty
  | c :: rest, pat => pat.isPrefixOf (c :: rest) || contains_sub rest pat

/-- Numeric value of a digit string, as Python int on a digit-only string. -/
def nat_of_digits (ds : Str) : Nat :=
  ds.foldl (fun n c => 10 * n + (c.toNat - 48)) 0

/-- Word boundary between a match and the remainder of the string. -/
def word_boundary_after : Str → Bool
  | [] => true
  | c :: _ => !isWordChar c

/-- Word boundary before the current scan position, given the previous character. -/
def boundary_prev : Option Char → Bool
  | none => true
  | some c => !isWordChar c

/-- Attempt, at the current position, the pattern digits-x-ws-pack with a word
boundary after; returns the captured digit group. -/
def match_xpack_at (s : Str) : Option Str :=
  let ds := s.takeWhile Char.isDigit
  if ds.isEmpty then none
  else
    match s.drop ds.length with
    | 'x' :: rest =>
      let rest2 := rest.dropWhile isWsChar
      if (strOf ("pack")).isPrefixOf rest2 && word_boundary_after (rest2.drop 4) then
        some ds
      else none
    | _ => none

/-- Leftmost search for the digits-x-ws-pack pattern with word boundaries. -/
def search_xpack : Option Char → Str → Option Str
  | _, [] => none
  | prev, c :: cs =>
    match (if boundary_prev prev then match_xpack_at (c :: cs) else none) with
    | some ds => some ds
    | none => search_xpack (some c) cs

/-- Attempt, at the current position, the standalone digits-x pattern with a
word boundary after; returns the captured digit group. -/
def match_x_at (s : Str) : Option Str :=
  let ds := s.takeWhile Char.isDigit
  if ds.isEmpty then none
  else
    match s.drop ds.length with
    | 'x' :: rest => if word_boundary_after rest then some ds else none
    | _ => none

/-- Leftmost search for the standalone digits-x pattern with word boundaries. -/
def search_x : Option Char → Str → Option Str
  | _, [] => none
  | prev, c :: cs =>
    match (if boundary_prev prev then match_x_at (c :: cs) else none) with
    | some ds => some ds
    | none => search_x (some c) cs

/-- Attempt, at the current position, the pattern pack(s)-ws-x-ws-digits with a
word boundary after the digits; returns the captured digit group. -/
def match_packx_at (s : Str) : Option Str :=
  if (strOf ("pack")).isPrefixOf s then
    let rest :=
      match s.drop 4 with
      | 's' :: r => r
      | r => r
    match rest.dropWhile isWsChar with
    | 'x' :: r3 =>
      let r4 := r3.dropWhile isWsChar
      let ds := r4.takeWhile Char.isDigit
      if ds.isEmpty then none
      else if word_boundary_after (r4.drop ds.length) then some ds else none
    | _ => none
  else none

/-- Leftmost search for the pack(s)-x-digits pattern with word boundaries. -/
def search_packx : Option Char → Str → Option Str
  | _, [] => none
  | prev, c :: cs =>
    match (if boundary_prev prev then match_packx_at (c :: cs) else none) with
    | some ds => some ds
    | none => search_packx (some c) cs

/-- Attempt, at the current position, the product-name pattern
digits-ws-hyphen-ws-pack-ws-blister with a word boundary after. -/
def match_blister_at (s : Str) : Bool :=
  let ds := s.takeWhile Char.isDigit
  if ds.isEmpty then false
  else
    let r0 := (s.drop ds.length).dropWhile isWsChar
    let r :=
      match r0 with
      | '-' :: r2 => r2.dropWhile isWsChar
      | _ => r0
    if (strOf ("pack")).isPrefixOf r then
      let r2 := r.drop 4
      let ws := r2.takeWhile isWsChar
      if ws.isEmpty then false
      else
        let r3 := r2.drop ws.length
        (strOf ("blister")).isPrefixOf r3 && word_boundary_after (r3.drop 7)
    else false

/-- Leftmost search for the pack-blister product-name pattern. -/
def search_blister : Option Char → Str → Bool
  | _, [] => false
  | prev, c :: cs =>
    (boundary_prev prev && match_blister_at (c :: cs)) || search_blister (some c) cs

/-- Quantity multiplier extractor of the ingestion service: parses multipliers
such as 2x pack from a raw listing title, guarding against pack-blister product
names, and defaults to 1. -/
def extract_quantity_multiplier (title : Str) : Int :=
  let lowered := lower_str title
  let packx : Int :=
    match search_packx none lowered with
    | some ds => (nat_of_digits ds : Int)
    | none => 1
  if contains_sub lowered (strOf ("blister")) && search_blister none lowered then 1
  else
    match search_xpack none lowered with
    | some ds => (nat_of_digits ds : Int)
    | none =>
      match search_x none lowered with
      | some ds =>
        if !(contains_sub lowered (strOf ("blister"))) then (nat_of_digits ds : Int)
        else packx
      | none => packx

/-- Display-suffix variant of the multiplier extractor in the reporting
service: returns a formatted suffix from the raw title, suppressed entirely
when the title mentions blister. -/
def extract_pack_multiplier_for_display (title : Str) : Str :=
  let lowered := lower_str title
  if contains_sub lowered (strOf ("blister")) then []
  else
    match search_xpack none lowered with
    | some ds => strOf (" - ") ++ ds ++ strOf ("x Pack")
    | none =>
      match search_x none lowered with
      | some ds => strOf (" - ") ++ ds ++ strOf ("x")
      | none =>
        match search_packx none lowered with
        | some ds => strOf (" - ") ++ ds ++ strOf ("x Pack")
        | none => []

/-- Python str.replace with all occurrences, fuelled by the input length
(each step consumes at least one character, so the fuel never runs out). -/
def replace_all_go : Nat → Str → Str → Str → Str
  | 0, _, _, s => s
  | _ + 1, _, _, [] => []
  | fuel + 1, pat, rep, c :: cs =>
    if !pat.isEmpty && pat.isPrefixOf (c :: cs) then
      rep ++ replace_all_go fuel pat rep ((c :: cs).drop pat.length)
    else c :: replace_all_go fuel pat rep cs

/-- Python str.replace old-to-new over the whole string. -/
def replace_all (s pat rep : Str) : Str := replace_all_go (s.length + 1) pat rep s

/-- Promotional event prefixes stripped by the custom rules. -/
def event_prefixes : List Str :=
  [strOf ("friday fiesta"), strOf ("friday surprise"),
   strOf ("new years spin out"), strOf ("kanto christmas gifts")]

/-- Drop a leading run of whitespace and hyphens, as the anchored regex
substitution in the custom rules. -/
def drop_lead_ws_dash (s : Str) : Str := s.dropWhile (fun c => isWsChar c || c == '-')

/-- Strip each known event prefix wherever it occurs, tidying the remainder. -/
def strip_event_prefixes (s : Str) : Str :=
  event_prefixes.foldl
    (fun acc p =>
      if contains_sub acc p then drop_lead_ws_dash (strip_ws (replace_all acc p []))
      else acc)
    s

/-- Ordered product-type detection chain of the custom rules; first match wins. -/
def product_type_of (lowered : Str) : Option Str :=
  if contains_sub lowered (strOf ("elite trainer box")) || contains_sub lowered (strOf ("etb")) then
    some (strOf ("etb"))
  else if contains_sub lowered (strOf ("booster bundle")) then some (strOf ("booster bundle"))
  else if contains_sub lowered (strOf ("premium collection")) then some (strOf ("premium collection"))
  else if contains_sub lowered (strOf ("ultra premium collection")) || contains_sub lowered (strOf ("upc")) then
    some (strOf ("upc"))
  else if contains_sub lowered (strOf ("plush collection")) then some (strOf ("plush collection"))
  else if contains_sub lowered (strOf ("figure collection")) then some (strOf ("figure collection"))
  else if contains_sub lowered (strOf ("battle deck")) then some (strOf ("battle deck"))
  else if contains_sub lowered (strOf ("blister")) then some (strOf ("blister"))
  else if contains_sub lowered (strOf ("sleeve")) || contains_sub lowered (strOf ("sleeved")) then
    some (strOf ("sleeve"))
  else if contains_sub lowered (strOf ("poke ball tin")) || contains_sub lowered (strOf ("pokeball tin")) then
    some (strOf ("poke ball tin"))
  else if contains_sub lowered (strOf ("pack")) then some (strOf ("pack"))
  else none

/-- Alternatives of the stop-word removal regex, in the alternation order of
the source pattern, with the optional-x alternatives flattened greedily. -/
def stop_alts : List Str :=
  [strOf ("1x"), strOf ("1"), strOf ("2x"), strOf ("2"), strOf ("pack"), strOf ("single"),
   strOf ("sleeve"), strOf ("sleeved"), strOf ("booster"), strOf ("blister"), strOf ("elite"),
   strOf ("trainer"), strOf ("box"), strOf ("etb"), strOf ("bundle"), strOf ("premium"),
   strOf ("ultra"), strOf ("collection"), strOf ("figure"), strOf ("plush"), strOf ("battle"),
   strOf ("deck"), strOf ("poke"), strOf ("ball"), strOf ("tin"), strOf ("upc")]

/-- First stop-word alternative matching at the current position with a word
boundary after it; returns its length. -/
def try_stop_alt : List Str → Str → Option Nat
  | [], _ => none
  | a :: rest, s =>
    if a.isPrefixOf s && word_boundary_after (s.drop a.length) then some a.length
    else try_stop_alt rest s

/-- Scanner for the stop-word regex substitution: each bounded stop word is
replaced by one space. The Bool records whether the previous character was a
word character (for the leading word boundary); fuel is the input length. -/
def sub_stop_go : Nat → Bool → Str → Str
  | 0, _, s => s
  | _ + 1, _, [] => []
  | fuel + 1, prevWord, c :: cs =>
    match (if !prevWord then try_stop_alt stop_alts (c :: cs) else none) with
    | some n => ' ' :: sub_stop_go fuel true ((c :: cs).drop n)
    | none => c :: sub_stop_go fuel (isWordChar c) cs

/-- Replace every word-bounded stop word with a single space. -/
def sub_stopwords (s : Str) : Str := sub_stop_go (s.length + 1) false s

/-- Scanner removing every hash-digits occurrence; the Bool records whether a
digit run following a removed hash is still being consumed. -/
def remove_hash_go : Bool → Str → Str
  | _, [] => []
  | skipping, c :: cs =>
    if skipping && c.isDigit then remove_hash_go true cs
    else if c == '#' && (match cs with | d :: _ => d.isDigit | [] => false) then
      remove_hash_go true cs
    else c :: remove_hash_go false cs

/-- Remove every hash-digits occurrence from the string. -/
def remove_hash_nums (s : Str) : Str := remove_hash_go false s

/-- Replace each character that is neither a word character nor whitespace by a
space (single-character regex class, so pointwise substitution is exact). -/
def sub_punct (s : Str) : Str := s.map (fun c => if isWordChar c || isWsChar c then c else ' ')

/-- Giveaway markers that short-circuit the custom rules. -/
def giveaway_markers : List Str :=
  [strOf ("giv"), strOf ("giveaway"), strOf ("random asian pack"),
   strOf ("random pokemon pack"), strOf ("asian pokemon pack"), strOf ("free")]

/-- Custom normalization rules of the reporting service: giveaway folding,
event-prefix stripping, product-type tagging, stop-word removal, and
stem/product-type recombination. -/
def apply_custom_rules (title : Str) : Str :=
  let lowered := lower_str title
  if giveaway_markers.any (fun x => contains_sub lowered x) then strOf ("random asian pack")
  else
    let lowered := strip_event_prefixes lowered
    let product_type := product_type_of lowered
    let clean := sub_stopwords lowered
    let clean := remove_hash_nums clean
    let clean := sub_punct clean
    let clean := strip_ws (collapse_ws clean)
    match product_type with
    | some pt => if !clean.isEmpty then clean ++ ' ' :: pt else pt
    | none => if !clean.isEmpty then clean else lowered

/-- Strip one trailing whitespace-hash-digits suffix, as the end-anchored regex
substitution in normalize_title. -/
def strip_trailing_lot (s : Str) : Str :=
  let r := s.reverse
  let ds := r.takeWhile Char.isDigit
  if ds.isEmpty then s
  else
    match r.drop ds.length with
    | '#' :: r2 =>
      let ws := r2.takeWhile isWsChar
      if ws.isEmpty then s else (r2.drop ws.length).reverse
    | _ => s

/-- Title normalizer of the reporting service, by mode: exact returns the
input; case_insensitive folds case and whitespace; aggressive and custom
additionally strip to ASCII, keep only key characters, and apply the custom
rules; any other mode behaves as case folding (unreachable after the mode
check in get_item_counts). -/
def normalize_title (title : Str) (mode : String) : Str :=
  if mode = ("exact") then title
  else
    let cleaned := lower_str (collapse_ws title)
    if mode = ("case_insensitive") then cleaned
    else if mode = ("aggressive") || mode = ("custom") then
      strip_trailing_lot (apply_custom_rules (collapse_ws (sub_nonkey (ascii_ignore cleaned))))
    else cleaned

/-- Set and product-line classifier over a normalized title; ordered keyword
table, first match wins, defaulting to the label Other. -/
def extract_set_name (title : Str) : Str :=
  let lowered := lower_str title
  if contains_sub lowered (strOf ("random asian pack")) || contains_sub lowered (strOf ("giv")) then
    strOf ("Giveaways")
  else if contains_sub lowered (strOf ("phantasmal flames")) || contains_sub lowered (strOf ("phantasmal")) then
    strOf ("Phantasmal Flames")
  else if contains_sub lowered (strOf ("destined rivals")) || contains_sub lowered (strOf ("destined rival")) then
    strOf ("Destined Rivals")
  else if contains_sub lowered (strOf ("prismatic evolutions")) || contains_sub lowered (strOf ("prismatic")) then
    strOf ("Prismatic Evolutions")
  else if contains_sub lowered (strOf ("mega evolutions")) || contains_sub lowered (strOf ("mega evolution")) || contains_sub lowered (strOf ("mega heroes")) then
    strOf ("Mega Evolutions")
  else if contains_sub lowered (strOf ("crown zenith")) then strOf ("Crown Zenith")
  else if contains_sub lowered (strOf ("paldean fates")) || contains_sub lowered (strOf ("paldaen fates")) then
    strOf ("Paldean Fates")
  else if contains_sub lowered (strOf ("surging sparks")) then strOf ("Surging Sparks")
  else if contains_sub lowered (strOf ("twilight masquerade")) || contains_sub lowered (strOf ("twilight masqerade")) then
    strOf ("Twilight Masquerade")
  else if contains_sub lowered (strOf ("stellar crown")) then strOf ("Stellar Crown")
  else if contains_sub lowered (strOf ("shrouded fables")) then strOf ("Shrouded Fables")
  else if contains_sub lowered (strOf ("journey together")) then strOf ("Journey Together")
  else if contains_sub lowered (strOf ("black bolt")) then strOf ("Black Bolt")
  else if contains_sub lowered (strOf ("white flare")) then strOf ("White Flare")
  else if contains_sub lowered (strOf ("trick or treat")) then strOf ("Trick or Treat")
  else if contains_sub lowered (strOf ("one piece")) || contains_sub lowered (strOf ("op ")) || contains_sub lowered (strOf ("op14")) || contains_sub lowered (strOf ("op13")) || contains_sub lowered (strOf ("op12")) || contains_sub lowered (strOf ("op11")) || contains_sub lowered (strOf ("op08")) || contains_sub lowered (strOf ("op 08")) then
    if contains_sub lowered (strOf ("azure sea")) then strOf ("One Piece - Azure Sea")
    else if contains_sub lowered (strOf ("op 14")) || contains_sub lowered (strOf ("op14")) then strOf ("One Piece - OP14")
    else if contains_sub lowered (strOf ("op 13")) || contains_sub lowered (strOf ("op13")) then strOf ("One Piece - OP13")
    else if contains_sub lowered (strOf ("op 12")) || contains_sub lowered (strOf ("op12")) then strOf ("One Piece - OP12")
    else if contains_sub lowered (strOf ("op 11")) || contains_sub lowered (strOf ("op11")) then strOf ("One Piece - OP11")
    else if contains_sub lowered (strOf ("op 08")) || contains_sub lowered (strOf ("op08")) || contains_sub lowered (strOf ("op 8")) then strOf ("One Piece - OP08")
    else strOf ("One Piece")
  else if contains_sub lowered (strOf ("plush collection")) then strOf ("Plush Collections")
  else if contains_sub lowered (strOf ("figure collection")) then strOf ("Figure Collections")
  else if contains_sub lowered (strOf ("premium collection")) || contains_sub lowered (strOf ("upc")) then
    if contains_sub lowered (strOf ("charizard")) then strOf ("Charizard Collections")
    else if contains_sub lowered (strOf ("venusaur")) then strOf ("Venusaur Collections")
    else if contains_sub lowered (strOf ("moltres")) then strOf ("Moltres Collections")
    else strOf ("Premium Collections")
  else if contains_sub lowered (strOf ("battle deck")) then strOf ("Battle Decks")
  else if contains_sub lowered (strOf ("poke ball tin")) || contains_sub lowered (strOf ("pokeball tin")) then
    strOf ("Poke Ball Tins")
  else if contains_sub lowered (strOf ("lunch chest")) || contains_sub lowered (strOf ("collector chest")) then
    strOf ("Storage/Chests")
  else if contains_sub lowered (strOf ("single")) || contains_sub lowered (strOf ("card")) then
    strOf ("Singles/Cards")
  else if contains_sub lowered (strOf ("unova heavy hitters")) then strOf ("Unova Heavy Hitters")
  else strOf ("Other")

/-- Python str.title, ASCII fragment: a letter is uppercased when the previous
character is not a letter, lowercased otherwise. -/
def title_case_go : Bool → Str → Str
  | _, [] => []
  | prevAlpha, c :: cs =>
    if c.isAlpha then (if prevAlpha then c.toLower else c.toUpper) :: title_case_go true cs
    else c :: title_case_go false cs

/-- Python str.title over a whole string. -/
def title_case (s : Str) : Str := title_case_go false s

/-- Display-title formatter: custom mode title-cases and restores known
acronyms, with a fixed label for the giveaway key; other modes pass through. -/
def format_display_title (normalized : Str) (mode : String) : Str :=
  if mode ≠ ("custom") then normalized
  else if normalized = strOf ("random asian pack") then strOf ("Random Asian Pack")
  else
    replace_all (replace_all (title_case normalized) (strOf ("Etb")) (strOf ("ETB")))
      (strOf ("Upc")) (strOf ("UPC"))

/-- Exact decimal/float value as an unnormalized fraction with positive
denominator. Python Decimal and float arithmetic on the values this program
manipulates is exact, and all operations used (addition, comparison, sign and
zero tests, truncation) are implemented without normalization so that they
evaluate inside the kernel. -/
structure Dec where
  num : Int
  den : Nat := 1
deriving DecidableEq

instance (n : Nat) : OfNat Dec n := ⟨⟨(n : Int), 1⟩⟩

/-- Embed an integer as an exact decimal value. -/
def Dec.ofInt (n : Int) : Dec := ⟨n, 1⟩

/-- Exact addition of decimal values. -/
def Dec.add (a b : Dec) : Dec := ⟨a.num * (b.den : Int) + b.num * (a.den : Int), a.den * b.den⟩

/-- Negation of a decimal value. -/
def Dec.neg (a : Dec) : Dec := ⟨-a.num, a.den⟩

/-- Value comparison of decimal values by cross multiplication. -/
def Dec.ltb (a b : Dec) : Bool := a.num * (b.den : Int) < b.num * (a.den : Int)

instance : LT Dec := ⟨fun a b => Dec.ltb a b = true⟩

instance (a b : Dec) : Decidable (a < b) := inferInstanceAs (Decidable (Dec.ltb a b = true))

/-- Python truthiness and equality with zero for numeric values. -/
def Dec.isZero (a : Dec) : Bool := a.num == 0

/-- Python sum over decimal values, starting from zero. -/
def dec_sum (l : List Dec) : Dec := l.foldl Dec.add 0

/-- Python int over a decimal/float value: truncation toward zero. -/
def int_of_dec (q : Dec) : Int :=
  if q.num ≥ 0 then ((q.num.natAbs / q.den : Nat) : Int)
  else -((q.num.natAbs / q.den : Nat) : Int)

/-- Parse a nonempty all-digit string. -/
def parse_nat_digits (s : Str) : Option Nat :=
  if !s.isEmpty && s.all Char.isDigit then some (nat_of_digits s) else none

/-- Python int over a stripped string: optional sign and decimal digits
(underscore separators and unicode digits are not modelled). -/
def parse_int_str : Str → Option Int
  | '-' :: ds => (parse_nat_digits ds).map (fun n => -(n : Int))
  | '+' :: ds => (parse_nat_digits ds).map (fun n => (n : Int))
  | ds => (parse_nat_digits ds).map (fun n => (n : Int))

/-- Unsigned decimal literal: digits, optionally a dot and fraction digits,
with at least one digit overall; the value is built exactly over a power of
ten denominator. -/
def parse_unsigned_dec (s : Str) : Option Dec :=
  let ip := s.takeWhile Char.isDigit
  match s.drop ip.length with
  | [] => if ip.isEmpty then none else some (Dec.ofInt (nat_of_digits ip : Int))
  | '.' :: fp =>
    if fp.all Char.isDigit && !(ip.isEmpty && fp.isEmpty) then
      some ⟨(nat_of_digits ip : Int) * ((10 ^ fp.length : Nat) : Int) + (nat_of_digits fp : Int),
            10 ^ fp.length⟩
    else none
  | _ => none

/-- Python Decimal constructor over a stripped string, restricted to plain
signed decimal literals (scientific notation and special values unmodelled). -/
def parse_dec_str : Str → Option Dec
  | '-' :: r => (parse_unsigned_dec r).map Dec.neg
  | '+' :: r => parse_unsigned_dec r
  | s => parse_unsigned_dec s

/-- One raw CSV record as produced by the dict reader: each column is either
absent or a raw string. -/
structure RawRow where
  order_id : Option Str := none
  listing_title : Option Str := none
  listing_description : Option Str := none
  product_category : Option Str := none
  buy_format : Option Str := none
  sale_type : Option Str := none
  quantity_sold : Option Str := none
  transaction_type : Option Str := none
  transaction_amount : Option Str := none
  buyer_paid : Option Str := none
  original_item_price : Option Str := none
  buyer_name : Option Str := none
  buyer_state : Option Str := none
  buyer_country : Option Str := none
  order_placed_at_utc : Option Str := none
  transaction_completed_at_utc : Option Str := none
deriving DecidableEq

/-- Validated CSV row, mirroring the pydantic model. Datetime columns are kept
as opaque optional strings (their format validation is not modelled). -/
structure CsvRow where
  order_id : Str
  listing_title : Str
  listing_description : Option Str
  product_category : Option Str
  buy_format : Option Str
  sale_type : Option Str
  quantity_sold : Int
  transaction_type : Str
  transaction_amount : Dec
  buyer_paid : Dec
  original_item_price : Dec
  buyer_name : Option Str
  buyer_state : Option Str
  buyer_country : Option Str
  order_placed_at_utc : Option Str
  transaction_completed_at_utc : Option Str
deriving DecidableEq

/-- Field validator mapping blank optional text to absent, stripping first. -/
def empty_to_none : Option Str → Option Str
  | none => none
  | some s =>
    let s' := strip_ws s
    if s'.isEmpty then none else some s'

/-- Quantity validator: absent or blank defaults to 1, otherwise Python int
(failure propagates as a validation error). -/
def parse_quantity : Option Str → Option Int
  | none => some 1
  | some s =>
    let s' := strip_ws s
    if s'.isEmpty then some 1 else parse_int_str s'

/-- Money validator: absent or blank defaults to zero, otherwise Decimal
(failure propagates as a validation error). -/
def parse_decimal : Option Str → Option Dec
  | none => some 0
  | some s =>
    let s' := strip_ws s
    if s'.isEmpty then some 0 else parse_dec_str s'

/-- Pydantic validation of one raw row; none models a ValidationError. The
required string fields are order_id (kept verbatim), listing_title (blank is
rejected by its validator), and transaction_type (kept verbatim). -/
def validate_row (r : RawRow) : Option CsvRow :=
  match r.order_id with
  | none => none
  | some oid =>
    match empty_to_none r.listing_title with
    | none => none
    | some lt =>
      match r.transaction_type with
      | none => none
      | some tt =>
        match parse_quantity r.quantity_sold with
        | none => none
        | some q =>
          match parse_decimal r.transaction_amount with
          | none => none
          | some ta =>
            match parse_decimal r.buyer_paid with
            | none => none
            | some bp =>
              match parse_decimal r.original_item_price with
              | none => none
              | some oip =>
                some
                  { order_id := oid
                    listing_title := lt
                    listing_description := empty_to_none r.listing_description
                    product_category := empty_to_none r.product_category
                    buy_format := empty_to_none r.buy_format
                    sale_type := empty_to_none r.sale_type
                    quantity_sold := q
                    transaction_type := tt
                    transaction_amount := ta
                    buyer_paid := bp
                    original_item_price := oip
                    buyer_name := empty_to_none r.buyer_name
                    buyer_state := empty_to_none r.buyer_state
                    buyer_country := empty_to_none r.buyer_country
                    order_placed_at_utc := empty_to_none r.order_placed_at_utc
                    transaction_completed_at_utc := empty_to_none r.transaction_completed_at_utc }

/-- Persisted transaction record (datetimes as opaque optional strings; the
autoincrement id and creation timestamp are not modelled). -/
structure Transaction where
  order_id : Str
  listing_title : Str
  listing_description : Option Str := none
  product_category : Option Str := none
  buy_format : Option Str := none
  sale_type : Option Str := none
  quantity_sold : Int := 1
  transaction_amount : Dec := 0
  buyer_paid : Dec := 0
  original_item_price : Dec := 0
  transaction_type : Str := []
  buyer_name : Option Str := none
  buyer_state : Option Str := none
  buyer_country : Option Str := none
  order_placed_at : Option Str := none
  transaction_completed_at : Option Str := none
  source_file : Str := []
  is_sale : Bool := true
deriving DecidableEq

/-- Persisted curated-metadata record for a normalized item name. -/
structure ProductImage where
  normalized_item_name : Str
  image_url : Option Str := none
  thumbnail_url : Option Str := none
  description : Option Str := none
  unit_cost : Dec := 0
deriving DecidableEq

/-- Persisted allocation of a quantity of one item to one owner. -/
structure Allocation where
  normalized_item_name : Str
  owner : Str
  allocated_quantity : Int
  unit_cost : Dec
  excel_item_name : Str
deriving DecidableEq

/-- Relational store contents visible to the services. -/
structure Db where
  transactions : List Transaction := []
  product_images : List ProductImage := []
  allocations : List Allocation := []
deriving DecidableEq

/-- Sale classifier of the ingestion service. -/
def is_sale_row (row : CsvRow) : Bool :=
  if row.transaction_type ≠ strOf ("ORDER_EARNINGS") then false
  else if row.transaction_amount > 0 then true
  else if row.buyer_paid > 0 then true
  else row.original_item_price > 0

/-- Title normalization applied at ingestion time: whitespace collapse only. -/
def ingest_normalize_title (title : Str) : Str := collapse_ws title

/-- Transaction built from a validated row: the stored quantity is the parsed
quantity times the multiplier extracted from the raw title, and the stored
title is the whitespace-collapsed raw title. -/
def mk_transaction (row : CsvRow) (src : Str) : Transaction :=
  { order_id := row.order_id
    listing_title := ingest_normalize_title row.listing_title
    listing_description := row.listing_description
    product_category := row.product_category
    buy_format := row.buy_format
    sale_type := row.sale_type
    quantity_sold := row.quantity_sold * extract_quantity_multiplier row.listing_title
    transaction_amount := row.transaction_amount
    buyer_paid := row.buyer_paid
    original_item_price := row.original_item_price
    transaction_type := row.transaction_type
    buyer_name := row.buyer_name
    buyer_state := row.buyer_state
    buyer_country := row.buyer_country
    order_placed_at := row.order_placed_at_utc
    transaction_completed_at := row.transaction_completed_at_utc
    source_file := src
    is_sale := is_sale_row row }

/-- Decision taken for one raw row against the current table: some transaction
to insert, or none when the row is skipped (validation failure, missing
required value, excluded non-sale, or duplicate order identifier). -/
def row_action (include_non_sales : Bool) (src : Str) (db : List Transaction) (r : RawRow) :
    Option Transaction :=
  match validate_row r with
  | none => none
  | some row =>
    if row.order_id.isEmpty || row.listing_title.isEmpty then none
    else if !include_non_sales && !is_sale_row row then none
    else if db.any (fun t => decide (t.order_id = row.order_id)) then none
    else some (mk_transaction row src)

/-- Ingestion of the rows of one CSV file, returning the new table together
with the loaded and skipped row counts. -/
def ingest_rows (include_non_sales : Bool) (src : Str) :
    List Transaction → List RawRow → List Transaction × Nat × Nat
  | db, [] => (db, 0, 0)
  | db, r :: rest =>
    match row_action include_non_sales src db r with
    | none =>
      let out := ingest_rows include_non_sales src db rest
      (out.1, out.2.1, out.2.2 + 1)
    | some t =>
      let out := ingest_rows include_non_sales src (db ++ [t]) rest
      (out.1, out.2.1 + 1, out.2.2)

/-- One report row. The verbatim-mode query returns dictionaries without the
set, image, cost and normalized-name keys; absent keys are modelled as none
(matching how the final sort reads them) and a zero cost. -/
structure ReportRow where
  listing_title : Str
  quantity_sold : Int
  buyer_name : Option Str
  set_name : Option Str
  image_url : Option Str
  unit_cost : Dec
  normalized_name : Option Str
deriving DecidableEq

/-- Ordered-dictionary accumulation: add q at key k, keeping first-insertion
order, appending a new entry when the key is absent (Counter semantics). -/
def bump_count {κ : Type} [DecidableEq κ] (k : κ) (q : Int) :
    List (κ × Int) → List (κ × Int)
  | [] => [(k, q)]
  | (k', q') :: rest =>
    if k' = k then (k', q' + q) :: rest else (k', q') :: bump_count k q rest

/-- Lookup in an association list (first match). -/
def alookup {κ β : Type} [DecidableEq κ] (k : κ) : List (κ × β) → Option β
  | [] => none
  | (k', v) :: rest => if k' = k then some v else alookup k rest

/-- Nested per-key title counter used for the fallback display title. -/
def bump_variant (n t : Str) (q : Int) :
    List (Str × List (Str × Int)) → List (Str × List (Str × Int))
  | [] => [(n, [(t, q)])]
  | (n', c) :: rest =>
    if n' = n then (n', bump_count t q c) :: rest else (n', c) :: bump_variant n t q rest

/-- First-title tracker: a defaultdict of strings where an entry is assigned
the current title whenever its current value is the empty string. -/
def set_original (n t : Str) : List (Str × Str) → List (Str × Str)
  | [] => [(n, t)]
  | (n', t') :: rest =>
    if n' = n then (if t'.isEmpty then (n', t) :: rest else (n', t') :: rest)
    else (n', t') :: set_original n t rest

/-- Fold keeping the earliest entry of maximal count. -/
def most_common_go (bt : Str) (bc : Int) : List (Str × Int) → Str
  | [] => bt
  | (t, c) :: rest => if c > bc then most_common_go t c rest else most_common_go bt bc rest

/-- Most common entry of a title counter: highest count, earliest insertion on
ties (Counter.most_common with Python's stable sort). -/
def most_common1 : List (Str × Int) → Str
  | [] => []
  | (t, c) :: rest => most_common_go t c rest

/-- Python string comparison: lexicographic by code point. -/
def str_lt : Str → Str → Bool
  | _, [] => false
  | [], _ :: _ => true
  | a :: as_, b :: bs =>
    if a.toNat < b.toNat then true
    else if a = b then str_lt as_ bs
    else false

/-- The sort key of the final report ordering: set name with Python-or default
ZZZ (an empty or absent set falls back), then the display title. -/
def report_sort_key (r : ReportRow) : Str × Str :=
  (match r.set_name with
   | some s => if s.isEmpty then strOf ("ZZZ") else s
   | none => strOf ("ZZZ"),
   r.listing_title)

/-- Lexicographic comparison of pairs of strings (Python tuple comparison). -/
def pair_str_lt (p q : Str × Str) : Bool :=
  str_lt p.1 q.1 || (decide (p.1 = q.1) && str_lt p.2 q.2)

/-- Comparison of report rows by their sort keys. -/
def report_row_lt (a b : ReportRow) : Bool :=
  pair_str_lt (report_sort_key a) (report_sort_key b)

/-- Stable insertion of one element into a sorted list: placed after every
element it is not strictly below (so equal keys keep their original order). -/
def ins_sorted {α : Type} (lt : α → α → Bool) (x : α) : List α → List α
  | [] => [x]
  | y :: ys => if lt x y then x :: y :: ys else y :: ins_sorted lt x ys

/-- Stable insertion sort; extensionally equal to Python's stable list sort
for the same strict-order key comparison. -/
def ins_sort {α : Type} (lt : α → α → Bool) : List α → List α
  | [] => []
  | x :: xs => ins_sorted lt x (ins_sort lt xs)

/-- Modes accepted by get_item_counts. -/
def recognized_modes : List String := [("exact"), ("case_insensitive"), ("aggressive"), ("custom")]

/-- First curated-metadata record for a normalized name, as the limited select
against the unique-indexed product_images table. -/
def find_image (images : List ProductImage) (n : Str) : Option ProductImage :=
  images.find? (fun pi => decide (pi.normalized_item_name = n))

/-- Accumulated in-memory aggregation state of the folded reporting path. -/
structure AggState where
  counts : List ((Str × Option Str) × Int) := []
  variants : List (Str × List (Str × Int)) := []
  originals : List (Str × Str) := []

/-- Fold one qualifying stored row into the aggregation state. -/
def agg_step (tm : String) (group_by_buyer : Bool) (st : AggState) (t : Transaction) : AggState :=
  let n := normalize_title t.listing_title tm
  { counts := bump_count (n, if group_by_buyer then t.buyer_name else none) t.quantity_sold st.counts
    variants := bump_variant n t.listing_title t.quantity_sold st.variants
    originals := set_original n t.listing_title st.originals }

/-- Report row produced for one aggregated group in the folded path, including
display-title resolution against curated metadata. -/
def build_report_row (images : List ProductImage) (tm : String) (group_by_buyer : Bool)
    (st : AggState) (key : Str × Option Str) (quantity : Int) : ReportRow :=
  let normalized := key.1
  let buyer := key.2
  let display := most_common1 ((alookup normalized st.variants).getD [])
  let display :=
    if tm = ("case_insensitive") || tm = ("aggressive") || tm = ("custom") then
      format_display_title normalized tm
    else display
  let set_name := if tm = ("custom") then some (extract_set_name normalized) else none
  let image_data := find_image images normalized
  let fallback :=
    (if tm = ("case_insensitive") || tm = ("aggressive") || tm = ("custom") then
      format_display_title normalized tm
     else display) ++
      extract_pack_multiplier_for_display ((alookup normalized st.originals).getD [])
  let display :=
    match image_data with
    | some pi =>
      match pi.description with
      | some d => if d.isEmpty then fallback else d
      | none => fallback
    | none => fallback
  { listing_title := display
    quantity_sold := quantity
    buyer_name := if group_by_buyer then buyer else none
    set_name := set_name
    image_url := match image_data with | some pi => pi.image_url | none => none
    unit_cost := match image_data with | some pi => pi.unit_cost | none => 0
    normalized_name := some normalized }

/-- Aggregated item counts of the reporting service. Unknown modes fall back
to exact. The exact mode is a grouped sum ordered by stored title (dictionary
keys absent from that query are modelled as none and zero cost); other modes
aggregate normalized titles in memory, join curated metadata, and sort by
set-then-title. -/
def get_item_counts (db : Db) (group_by_buyer : Bool) (include_non_sales : Bool)
    (title_match : String) : List ReportRow :=
  let tm := if recognized_modes.contains title_match then title_match else ("exact")
  let rows := db.transactions.filter (fun t => include_non_sales || t.is_sale)
  if tm = ("exact") then
    let grouped :=
      rows.foldl
        (fun acc t =>
          bump_count (t.listing_title, if group_by_buyer then t.buyer_name else none)
            t.quantity_sold acc)
        []
    let out :=
      grouped.map (fun kq =>
        { listing_title := kq.1.1
          quantity_sold := kq.2
          buyer_name := kq.1.2
          set_name := none
          image_url := none
          unit_cost := 0
          normalized_name := none : ReportRow })
    ins_sort (fun a b => str_lt a.listing_title b.listing_title) out
  else
    let st := rows.foldl (agg_step tm group_by_buyer) {}
    let results := st.counts.map (fun kq => build_report_row db.product_images tm group_by_buyer st kq.1 kq.2)
    ins_sort report_row_lt results

/-- Split on whitespace runs, dropping empty tokens (Python str.split). -/
def split_ws_go (cur : Str) : Str → List Str
  | [] => if cur.isEmpty then [] else [cur.reverse]
  | c :: cs =>
    if isWsChar c then
      if cur.isEmpty then split_ws_go [] cs else cur.reverse :: split_ws_go [] cs
    else split_ws_go (c :: cur) cs

/-- Python str.split with no arguments. -/
def split_ws (s : Str) : List Str := split_ws_go [] s

/-- Boolean membership of a string in a list of strings. -/
def mem_str (w : Str) (l : List Str) : Bool := l.any (fun x => decide (x = w))

/-- Deduplicate keeping first occurrences (Python set built from a list, used
only for membership and cardinality). -/
def dedup_go (seen : List Str) : List Str → List Str
  | [] => []
  | a :: as_ => if mem_str a seen then dedup_go seen as_ else a :: dedup_go (a :: seen) as_

/-- Distinct words of a string. -/
def word_set (s : Str) : List Str := dedup_go [] (split_ws s)

/-- Size of the intersection of a deduplicated list with another list. -/
def inter_count (a b : List Str) : Nat := (a.filter (fun w => mem_str w b)).length

/-- Spelling replacements of the fuzzy matcher, in source order. -/
def fuzzy_replacements : List (Str × Str) :=
  [(strOf ("phantasma"), strOf ("phantasmal")),
   (strOf ("venasaur"), strOf ("venusaur")),
   (strOf ("pokeball"), strOf ("poke ball")),
   (strOf ("khangaskhan"), strOf ("kangaskhan")),
   (strOf ("kanghaskan"), strOf ("kangaskhan")),
   (strOf ("masqurade"), strOf ("masquerade")),
   (strOf ("masqerade"), strOf ("masquerade")),
   (strOf ("booster box"), strOf ("booster bundle")),
   (strOf ("3xpack"), strOf ("3 pack")),
   (strOf ("sneasel"), strOf ("sneasel")),
   (strOf ("upc"), strOf ("ultra premium collection")),
   (strOf ("elite trainer box"), strOf ("etb"))]

/-- Noise words removed (with surrounding spaces) by the fuzzy matcher. -/
def fuzzy_noise_words : List Str := [strOf ("ex"), strOf ("pokemon"), strOf ("the")]

/-- Set-name words scored heavily by the fuzzy matcher. -/
def key_set_words : List Str :=
  [strOf ("phantasmal"), strOf ("destined"), strOf ("prismatic"), strOf ("mega"),
   strOf ("surging"), strOf ("twilight"), strOf ("stellar"), strOf ("crown"),
   strOf ("paldean"), strOf ("black"), strOf ("white"), strOf ("shrouded"), strOf ("unova"),
   strOf ("charizard"), strOf ("venusaur"), strOf ("latias"), strOf ("lucario"),
   strOf ("kangaskhan"), strOf ("diancie"), strOf ("moltres"), strOf ("melmetal"),
   strOf ("kyurem"), strOf ("hydreigon"), strOf ("dragapult"), strOf ("armarouge"),
   strOf ("sneasel"), strOf ("cottonee"), strOf ("whimsicott"), strOf ("flames"),
   strOf ("evolutions"), strOf ("bolt"), strOf ("flare"), strOf ("fables"),
   strOf ("sparks"), strOf ("masquerade"), strOf ("fates")]

/-- Product-type words scored by the fuzzy matcher. -/
def key_product_words : List Str :=
  [strOf ("sleeve"), strOf ("blister"), strOf ("etb"), strOf ("bundle"), strOf ("tin"),
   strOf ("collection"), strOf ("deck"), strOf ("chest"), strOf ("figure"), strOf ("plush"),
   strOf ("booster"), strOf ("elite"), strOf ("trainer"), strOf ("box"), strOf ("premium"),
   strOf ("ultra"), strOf ("battle")]

/-- Score of one inventory item against the normalized Excel words, together
with whether it shares at least one set or product word (eligibility). -/
def fuzzy_score (normalized_excel : Str) (excel_words excel_set_words excel_product_words : List Str)
    (inv : Str) : Int × Bool :=
  let inv_lower := lower_str inv
  let inv_words := word_set inv_lower
  let common_sets := inter_count excel_set_words inv_words
  let common_products := inter_count excel_product_words inv_words
  let common_words := inter_count excel_words inv_words
  let score : Int := (common_sets : Int) * 3 + (common_products : Int) * 2 + (common_words : Int)
  let score :=
    if contains_sub inv_lower normalized_excel || contains_sub normalized_excel inv_lower then
      score + 2
    else score
  let score :=
    if ((excel_words.length : Int) - (inv_words.length : Int)).natAbs > 3 then score - 1
    else score
  (score, decide (0 < common_sets) || decide (0 < common_products))

/-- Fuzzy matcher of the allocation service: spelling normalization, an exact
pass, then keyword scoring with a minimum acceptance score of 4. -/
def fuzzy_match_item_name (excel_name : Str) (inventory_items : List Str) : Option Str :=
  let excel_lower := lower_str (strip_ws excel_name)
  let normalized_excel :=
    fuzzy_replacements.foldl (fun acc pr => replace_all acc pr.1 pr.2) excel_lower
  let normalized_excel :=
    fuzzy_noise_words.foldl (fun acc w => replace_all acc (' ' :: (w ++ [' '])) (strOf (" ")))
      normalized_excel
  let normalized_excel := collapse_ws normalized_excel
  match inventory_items.find?
      (fun inv => decide (lower_str inv = excel_lower) || decide (lower_str inv = normalized_excel)) with
  | some inv => some inv
  | none =>
    let excel_words := word_set normalized_excel
    let excel_set_words := excel_words.filter (fun w => mem_str w key_set_words)
    let excel_product_words := excel_words.filter (fun w => mem_str w key_product_words)
    let best :=
      inventory_items.foldl
        (fun (acc : Option Str × Int) inv =>
          let sc := fuzzy_score normalized_excel excel_words excel_set_words excel_product_words inv
          if sc.2 && sc.1 > acc.2 then (some inv, sc.1) else acc)
        (none, 0)
    if best.2 ≥ 4 then best.1 else none

/-- Unit cost lookup with Decimal truthiness: a present record with a zero
cost still yields zero. -/
def get_unit_cost_for_item (images : List ProductImage) (n : Str) : Dec :=
  match find_image images n with
  | some pi => if !pi.unit_cost.isZero then pi.unit_cost else 0
  | none => 0

/-- One data row of an allocation worksheet. A missing or non-string item cell
is modelled as none; a missing count cell is modelled as zero (both are
skipped, as Python truthiness does). Numeric cells are rationals. -/
structure XlsRow where
  item_name : Option Str := none
  cost : Option Dec := none
  count : Dec := 0
deriving DecidableEq

/-- One worksheet: its name is the owner, followed by its data rows. -/
structure XlsSheet where
  owner : Str
  rows : List XlsRow
deriving DecidableEq

/-- A matched allocation candidate recorded during import. -/
structure MatchedAlloc where
  excel_name : Str
  inventory_name : Str
  owner : Str
  allocated_quantity : Dec
  unit_cost : Dec
  available_quantity : Int
deriving DecidableEq

/-- An unmatched Excel row recorded during import. -/
structure UnmatchedAlloc where
  excel_name : Str
  owner : Str
  allocated_quantity : Dec
  unit_cost : Dec
deriving DecidableEq

/-- An over-allocation warning recorded during import. -/
structure OverAlloc where
  excel_name : Str
  inventory_name : Str
  owner : Str
  allocated_quantity : Dec
  available_quantity : Int
  total_allocated : Dec
  unit_cost : Dec
deriving DecidableEq

/-- Accumulated state of the import loop, including the per-item cumulative
allocation totals. -/
structure ImportState where
  matched : List MatchedAlloc := []
  unmatched : List UnmatchedAlloc := []
  over_allocated : List OverAlloc := []
  totals : List (Str × Dec) := []
deriving DecidableEq

/-- Summary returned by the bulk import. -/
structure ImportSummary where
  matched : List MatchedAlloc
  unmatched : List UnmatchedAlloc
  over_allocated : List OverAlloc
  total_allocated : Dec
  total_unmatched : Dec
  total_over_allocated : Dec
deriving DecidableEq

/-- Ordered accumulation of decimal totals per item name. -/
def bump_dec (k : Str) (q : Dec) : List (Str × Dec) → List (Str × Dec)
  | [] => [(k, q)]
  | (k', v) :: rest => if k' = k then (k', v.add q) :: rest else (k', v) :: bump_dec k q rest

/-- Python dict update: value replaced in place, key order of first insertion
kept, new keys appended. -/
def upd_assoc {β : Type} (k : Str) (v : β) : List (Str × β) → List (Str × β)
  | [] => [(k, v)]
  | (k', v') :: rest => if k' = k then (k', v) :: rest else (k', v') :: upd_assoc k v rest

/-- Process one worksheet row of the bulk allocation import: skip blank rows,
fuzzy-match the item, accumulate the per-item total, and record the row as
matched or as an over-allocation warning once the cumulative total exceeds the
available quantity. -/
def import_step (db : Db) (inventory_dict : List (Str × Int)) (inventory_names : List Str)
    (owner : Str) (st : ImportState) (r : XlsRow) : ImportState :=
  match r.item_name with
  | none => st
  | some raw_name =>
    if raw_name.isEmpty || r.count.isZero then st
    else
      let item_name := strip_ws raw_name
      match fuzzy_match_item_name item_name inventory_names with
      | some matched_name =>
        let available := (alookup matched_name inventory_dict).getD 0
        let allocated_qty := r.count
        let normalized_name := normalize_title (lower_str matched_name) ("custom")
        let db_unit_cost := get_unit_cost_for_item db.product_images normalized_name
        let final_unit_cost := if db_unit_cost > 0 then db_unit_cost else r.cost.getD 0
        let totals := bump_dec matched_name allocated_qty st.totals
        let cum := (alookup matched_name totals).getD 0
        if cum > Dec.ofInt available then
          { st with
            totals := totals
            over_allocated := st.over_allocated ++
              [{ excel_name := item_name
                 inventory_name := matched_name
                 owner := owner
                 allocated_quantity := allocated_qty
                 available_quantity := available
                 total_allocated := cum
                 unit_cost := final_unit_cost }] }
        else
          { st with
            totals := totals
            matched := st.matched ++
              [{ excel_name := item_name
                 inventory_name := matched_name
                 owner := owner
                 allocated_quantity := allocated_qty
                 unit_cost := final_unit_cost
                 available_quantity := available }] }
      | none =>
        { st with
          unmatched := st.unmatched ++
            [{ excel_name := item_name
               owner := owner
               allocated_quantity := r.count
               unit_cost := r.cost.getD 0 }] }

/-- Allocation row persisted from a matched import record. -/
def mk_allocation (m : MatchedAlloc) : Allocation :=
  { normalized_item_name := m.inventory_name
    owner := m.owner
    allocated_quantity := int_of_dec m.allocated_quantity
    unit_cost := m.unit_cost
    excel_item_name := m.excel_name }

/-- Bulk allocation import. The current inventory report (including non-sales)
provides the match targets and available quantities; each sheet is one owner.
Without a dry run, the allocation table is replaced wholesale by the matched
rows; with a dry run it is left untouched. Returns the resulting allocation
table and the import summary. -/
def import_allocations_from_excel (db : Db) (sheets : List XlsSheet) (title_match : String)
    (dry_run : Bool) : List Allocation × ImportSummary :=
  let inventory_items := get_item_counts db false true title_match
  let inventory_dict :=
    inventory_items.foldl (fun acc it => upd_assoc it.listing_title it.quantity_sold acc) []
  let inventory_names := inventory_dict.map (fun kv => kv.1)
  let st :=
    sheets.foldl
      (fun acc sh => sh.rows.foldl (import_step db inventory_dict inventory_names sh.owner) acc)
      {}
  let new_allocs := if dry_run then db.allocations else st.matched.map mk_allocation
  (new_allocs,
   { matched := st.matched
     unmatched := st.unmatched
     over_allocated := st.over_allocated
     total_allocated := dec_sum (st.matched.map (fun m => m.allocated_quantity))
     total_unmatched := dec_sum (st.unmatched.map (fun u => u.allocated_quantity))
     total_over_allocated := dec_sum (st.over_allocated.map (fun o => o.allocated_quantity)) })

/-- Store with four persisted giveaway rows of quantity one each. -/
def giveawayDb : Db :=
  { transactions :=
      [{ order_id := strOf ("1"), listing_title := strOf ("Givyyyyy"), quantity_sold := 1, is_sale := false },
       { order_id := strOf ("2"), listing_title := strOf ("Free.99 - Random Pokemon Pack #2"), quantity_sold := 1, is_sale := false },
       { order_id := strOf ("3"), listing_title := strOf ("Friday Fiesta - Random Pokemon Pack!"), quantity_sold := 1, is_sale := false },
       { order_id := strOf ("4"), listing_title := strOf ("Kanto Christmas Gifts - Asian Pokemon Pack"), quantity_sold := 1, is_sale := false }] }

/-- Store with one unclassified item and one Phantasmal Flames item. -/
def mixedSetDb : Db :=
  { transactions :=
      [{ order_id := strOf ("1"), listing_title := strOf ("Zebra Widget"), quantity_sold := 1 },
       { order_id := strOf ("2"), listing_title := strOf ("Phantasmal Flames Pack"), quantity_sold := 2 }] }

/-- Store with one transaction and a curated override name for its title. -/
def overrideDb : Db :=
  { transactions := [{ order_id := strOf ("1"), listing_title := strOf ("Foo"), quantity_sold := 1 }]
    product_images := [{ normalized_item_name := strOf ("Foo"), description := some (strOf ("Bar")) }] }

/-- Store with one transaction whose custom-mode normalized key carries a
curated override display name. -/
def curatedDb : Db :=
  { transactions := [{ order_id := strOf ("1"), listing_title := strOf ("Phantasmal Flames Pack"), quantity_sold := 1 }]
    product_images := [{ normalized_item_name := strOf ("phantasmal flames pack"), description := some (strOf ("Cool Name")) }] }

/-- Store with a single five-unit sleeve item for the import scenario. -/
def sleeveDb : Db :=
  { transactions :=
      [{ order_id := strOf ("1"), listing_title := strOf ("Phantasmal Flames Sleeve"), quantity_sold := 5 }] }

/-- Worksheet allocating three plus three units of the five available. -/
def overSheets : List XlsSheet :=
  [{ owner := strOf ("Cihan")
     rows :=
       [{ item_name := some (strOf ("Phantasmal Flames Sleeve")), cost := some 2, count := 3 },
        { item_name := some (strOf ("Phantasmal Flames Sleeve")), cost := some 2, count := 3 }] }]

/-- Raw CSV row with a one-times-pack title and an explicit quantity of two. -/
def c7_raw_a : RawRow :=
  { order_id := some (strOf ("1")), listing_title := some (strOf ("1x Pack - Item #11")),
    quantity_sold := some (strOf ("2")), transaction_type := some (strOf ("ORDER_EARNINGS")),
    transaction_amount := some (strOf ("10.00")) }

/-- Raw CSV row with a two-times-pack title and an explicit quantity of one. -/
def c7_raw_b : RawRow :=
  { order_id := some (strOf ("2")), listing_title := some (strOf ("2x Pack - Item")),
    quantity_sold := some (strOf ("1")), transaction_type := some (strOf ("ORDER_EARNINGS")),
    transaction_amount := some (strOf ("10.00")) }

/-- Validated form of the first raw row. -/
def c7_csv_a : CsvRow :=
  { order_id := strOf ("1"), listing_title := strOf ("1x Pack - Item #11"),
    listing_description := none, product_category := none, buy_format := none, sale_type := none,
    quantity_sold := 2, transaction_type := strOf ("ORDER_EARNINGS"),
    transaction_amount := { num := 1000, den := 100 }, buyer_paid := 0, original_item_price := 0,
    buyer_name := none, buyer_state := none, buyer_country := none,
    order_placed_at_utc := none, transaction_completed_at_utc := none }

/-- A character a giveaway marker may contain besides isolated spaces: a key
character that is not whitespace. -/
def marker_char_ok (c : Char) : Bool := isKeyChar c && !isWsChar c

/-- Interior well-formedness of a marker string: key characters with every
space isolated between key characters. -/
def marker_mid_ok : Str → Bool
  | [] => true
  | c :: rest =>
    if marker_char_ok c then marker_mid_ok rest
    else if c = ' ' then
      match rest with
      | d :: _ => marker_char_ok d && marker_mid_ok rest
      | [] => false
    else false

/-- Well-formed marker: nonempty, starts with a key character, and is
interior-well-formed (so it also ends with a key character). -/
def marker_ok : Str → Bool
  | [] => false
  | c :: rest => marker_char_ok c && marker_mid_ok (c :: rest)

theorem band_left {a b : Bool} (h : (a && b) = true) : a = true := by
  cases a <;> simp_all

theorem band_right {a b : Bool} (h : (a && b) = true) : b = true := by
  cases a <;> simp_all

theorem band_split {a b : Bool} (h : (a && b) = true) : a = true ∧ b = true :=
  ⟨band_left h, band_right h⟩

theorem isPrefixOf_append_self (p t : Str) : p.isPrefixOf (p ++ t) = true := by
  induction p with
  | nil => simp [List.isPrefixOf]
  | cons c cs ih => simp [List.isPrefixOf, ih]

theorem isPrefixOf_exists : ∀ (p s : Str), p.isPrefixOf s = true → ∃ t, s = p ++ t := by
  intro p
  induction p with
  | nil => intro s _; exact ⟨s, rfl⟩
  | cons c cs ih =>
    intro s h
    cases s with
    | nil => simp [List.isPrefixOf] at h
    | cons d ds =>
      simp only [List.isPrefixOf, Bool.and_eq_true, beq_iff_eq] at h
      obtain ⟨t, ht⟩ := ih ds h.2
      exact ⟨t, by simp [h.1, ht]⟩

theorem contains_of_decomp : ∀ (u m v : Str), contains_sub (u ++ m ++ v) m = true := by
  intro u m v
  induction u with
  | nil =>
    cases m with
    | nil => cases v <;> simp [contains_sub, List.isPrefixOf]
    | cons c cs =>
      simp only [List.nil_append, List.cons_append, contains_sub]
      have := isPrefixOf_append_self (c :: cs) v
      simp only [List.cons_append] at this
      simp [this]
  | cons c u' ih =>
    simp only [List.cons_append, contains_sub, Bool.or_eq_true]
    right
    simpa [List.append_assoc] using ih

theorem contains_sub_exists : ∀ (s m : Str), contains_sub s m = true → ∃ u v, s = u ++ m ++ v := by
  intro s
  induction s with
  | nil =>
    intro m h
    simp only [contains_sub, List.isEmpty_iff] at h
    exact ⟨[], [], by simp [h]⟩
  | cons c rest ih =>
    intro m h
    simp only [contains_sub, Bool.or_eq_true] at h
    rcases h with h | h
    · obtain ⟨t, ht⟩ := isPrefixOf_exists m (c :: rest) h
      exact ⟨[], t, by simp [ht]⟩
    · obtain ⟨u, v, huv⟩ := ih m h
      exact ⟨c :: u, v, by simp [huv]⟩

theorem contains_cons_of {s m : Str} (c : Char) (h : contains_sub s m = true) :
    contains_sub (c :: s) m = true := by
  simp [contains_sub, h]

theorem str_lt_irrefl : ∀ s : Str, str_lt s s = false := by
  intro s
  induction s with
  | nil => rfl
  | cons c cs ih => simp [str_lt, ih]

theorem str_lt_asymm : ∀ a b : Str, str_lt a b = true → str_lt b a = false := by
  intro a
  induction a with
  | nil =>
    intro b h
    cases b with
    | nil => simp [str_lt] at h
    | cons d ds => simp [str_lt]
  | cons c cs ih =>
    intro b h
    cases b with
    | nil => simp [str_lt] at h
    | cons d ds =>
      simp only [str_lt] at h ⊢
      by_cases h1 : c.toNat < d.toNat
      · have h2 : ¬ d.toNat < c.toNat := by omega
        have h3 : ¬ d = c := by
          intro he; subst he; omega
        simp [h2, h3]
      · by_cases h3 : c = d
        · subst h3
          simp only [h1, if_false, if_pos rfl] at h ⊢
          simp [Nat.lt_irrefl, ih ds h]
        · simp [h1, h3] at h

theorem str_lt_trans : ∀ a b c : Str, str_lt a b = true → str_lt b c = true → str_lt a c = true := by
  intro a
  induction a with
  | nil =>
    intro b c hab hbc
    cases b with
    | nil => simp [str_lt] at hab
    | cons d ds =>
      cases c with
      | nil => simp [str_lt] at hbc
      | cons e es => simp [str_lt]
  | cons x xs ih =>
    intro b c hab hbc
    cases b with
    | nil => simp [str_lt] at hab
    | cons d ds =>
      cases c with
      | nil => simp [str_lt] at hbc
      | cons e es =>
        simp only [str_lt] at hab hbc ⊢
        by_cases h1 : x.toNat < d.toNat
        · by_cases h2 : d.toNat < e.toNat
          · have hxe : x.toNat < e.toNat := by omega
            simp [hxe]
          · by_cases h3 : d = e
            · subst h3; simp [h1]
            · simp [h2, h3] at hbc
        · by_cases h3 : x = d
          · subst h3
            by_cases h2 : x.toNat < e.toNat
            · simp [h2]
            · by_cases h4 : x = e
              · subst h4
                simp only [h1, if_false, if_pos rfl] at hab hbc ⊢
                exact ih ds es hab hbc
              · simp [h2, h4] at hbc
          · simp [h1, h3] at hab

theorem mem_ins_sorted {α : Type} (lt : α → α → Bool) (x : α) :
    ∀ (l : List α) (a : α), a ∈ ins_sorted lt x l ↔ a = x ∨ a ∈ l := by
  intro l
  induction l with
  | nil => intro a; simp [ins_sorted]
  | cons y ys ih =>
    intro a
    simp only [ins_sorted]
    split
    · simp only [List.mem_cons]
    · simp only [List.mem_cons, ih]
      tauto

theorem mem_ins_sort {α : Type} (lt : α → α → Bool) :
    ∀ (l : List α) (a : α), a ∈ ins_sort lt l ↔ a ∈ l := by
  intro l
  induction l with
  | nil => intro a; simp [ins_sort]
  | cons y ys ih =>
    intro a
    simp only [ins_sort, mem_ins_sorted, ih, List.mem_cons]

theorem pairwise_ins_sorted {α : Type} (lt : α → α → Bool)
    (hasym : ∀ a b, lt a b = true → lt b a = false)
    (htrans : ∀ a b c, lt a b = true → lt b c = true → lt a c = true)
    (x : α) :
    ∀ (l : List α), l.Pairwise (fun a b => lt b a = false) →
      (ins_sorted lt x l).Pairwise (fun a b => lt b a = false) := by
  intro l
  induction l with
  | nil => intro _; simp [ins_sorted]
  | cons y ys ih =>
    intro hl
    rcases List.pairwise_cons.1 hl with ⟨hy, hys⟩
    simp only [ins_sorted]
    split
    · next hxy =>
        refine List.Pairwise.cons ?_ hl
        intro z hz
        rcases List.mem_cons.1 hz with rfl | hz
        · exact hasym x z hxy
        · cases hzx : lt z x with
          | false => rfl
          | true => exact absurd (htrans z x y hzx hxy) (by simp [hy z hz])
    · next hxy =>
        refine List.Pairwise.cons ?_ (ih hys)
        intro z hz
        rcases (mem_ins_sorted lt x ys z).1 hz with rfl | hz
        · simpa using hxy
        · exact hy z hz

theorem pairwise_ins_sort {α : Type} (lt : α → α → Bool)
    (hasym : ∀ a b, lt a b = true → lt b a = false)
    (htrans : ∀ a b c, lt a b = true → lt b c = true → lt a c = true) :
    ∀ l : List α, (ins_sort lt l).Pairwise (fun a b => lt b a = false) := by
  intro l
  induction l with
  | nil => simp [ins_sort]
  | cons x xs ih => exact pairwise_ins_sorted lt hasym htrans x _ ih

theorem pair_str_lt_asymm (p q : Str × Str) (h : pair_str_lt p q = true) :
    pair_str_lt q p = false := by
  cases hqp : pair_str_lt q p with
  | false => rfl
  | true =>
    exfalso
    unfold pair_str_lt at h hqp
    simp only [Bool.or_eq_true, Bool.and_eq_true, decide_eq_true_eq] at h hqp
    rcases h with h1 | ⟨he, h2⟩ <;> rcases hqp with g1 | ⟨ge, g2⟩
    · exact absurd g1 (by simp [str_lt_asymm _ _ h1])
    · rw [ge] at h1; simp [str_lt_irrefl] at h1
    · rw [he] at g1; simp [str_lt_irrefl] at g1
    · exact absurd g2 (by simp [str_lt_asymm _ _ h2])

theorem pair_str_lt_trans (p q r : Str × Str) (h1 : pair_str_lt p q = true)
    (h2 : pair_str_lt q r = true) : pair_str_lt p r = true := by
  unfold pair_str_lt at h1 h2 ⊢
  simp only [Bool.or_eq_true, Bool.and_eq_true, decide_eq_true_eq] at h1 h2 ⊢
  rcases h1 with h1 | ⟨he1, hl1⟩ <;> rcases h2 with h2 | ⟨he2, hl2⟩
  · exact Or.inl (str_lt_trans _ _ _ h1 h2)
  · rw [he2] at h1; exact Or.inl h1
  · rw [he1]; exact Or.inl h2
  · exact Or.inr ⟨he1.trans he2, str_lt_trans _ _ _ hl1 hl2⟩

theorem report_row_lt_asymm (a b : ReportRow) (h : report_row_lt a b = true) :
    report_row_lt b a = false :=
  pair_str_lt_asymm _ _ h

theorem report_row_lt_trans (a b c : ReportRow) (h1 : report_row_lt a b = true)
    (h2 : report_row_lt b c = true) : report_row_lt a c = true :=
  pair_str_lt_trans _ _ _ h1 h2

theorem report_row_lt_of_title (a b : ReportRow) (ha : a.set_name = none)
    (hb : b.set_name = none) (h : str_lt b.listing_title a.listing_title = false) :
    report_row_lt b a = false := by
  unfold report_row_lt pair_str_lt report_sort_key
  rw [ha, hb]
  simp [str_lt_irrefl, h]

/-- C1 (amended): every report produced by get_item_counts is sorted ascending
by the pair (set name if present, else the string ZZZ; then display title).
Rows with an absent set name take the key ZZZ and therefore sort last; but a
row labelled with the literal set string Other sorts at the alphabetical
position of Other, which can precede classified sets whose labels come later
in the alphabet. -/
theorem pairwise_title_sorted (l : List ReportRow) (hset : ∀ r ∈ l, r.set_name = none) :
    (ins_sort (fun a b => str_lt a.listing_title b.listing_title) l).Pairwise
      (fun a b => report_row_lt b a = false) := by
  apply List.Pairwise.imp_of_mem ?_
    (pairwise_ins_sort (fun (a b : ReportRow) => str_lt a.listing_title b.listing_title)
      (fun a b h => str_lt_asymm _ _ h) (fun a b c h1 h2 => str_lt_trans _ _ _ h1 h2) l)
  intro a b ha hb hR
  exact report_row_lt_of_title a b (hset a ((mem_ins_sort _ _ a).1 ha))
    (hset b ((mem_ins_sort _ _ b).1 hb)) hR

theorem c1_report_rows_sorted (db : Db) (gb inc : Bool) (mode : String) :
    (get_item_counts db gb inc mode).Pairwise (fun a b => report_row_lt b a = false) := by
  simp only [get_item_counts]
  split
  · split
    · apply pairwise_title_sorted
      intro r hr
      rcases List.mem_map.1 hr with ⟨kq, _, rfl⟩
      rfl
    · exact pairwise_ins_sort report_row_lt report_row_lt_asymm report_row_lt_trans _
  · rw [if_pos rfl]
    apply pairwise_title_sorted
    intro r hr
    rcases List.mem_map.1 hr with ⟨kq, _, rfl⟩
    rfl

/-- C1 (counterexample): in custom mode, a row classified Other (unclassified)
sorts before a row classified Phantasmal Flames, so unclassified items do not
sort last. -/
theorem c1_counterexample :
    (get_item_counts mixedSetDb false false ("custom")).map (fun r => r.set_name) =
      [some (strOf ("Other")), some (strOf ("Phantasmal Flames"))] := by decide

/-- C9: any mode string outside the recognized set makes get_item_counts
behave exactly as the verbatim (exact) mode: same grouping, rows, ordering. -/
theorem c9_unknown_mode_falls_back (db : Db) (gb inc : Bool) (mode : String)
    (h : recognized_modes.contains mode = false) :
    get_item_counts db gb inc mode = get_item_counts db gb inc ("exact") := by
  have h' : ¬ mode ∈ recognized_modes := by simpa using h
  have hx : ("exact") ∈ recognized_modes := by decide
  simp [get_item_counts, h', hx]

theorem c9_witness :
    get_item_counts giveawayDb false true ("bogus") = get_item_counts giveawayDb false true ("exact") :=
  c9_unknown_mode_falls_back giveawayDb false true ("bogus") (by decide)

/-- C10: a non-dry-run bulk import replaces the whole allocation table with
exactly the allocations built from the matched rows, regardless of the
previous table contents; a dry run leaves the table unchanged. -/
theorem c10_import_replaces_table (db : Db) (sheets : List XlsSheet) (tm : String) :
    (import_allocations_from_excel db sheets tm true).1 = db.allocations ∧
    (import_allocations_from_excel db sheets tm false).1 =
      ((import_allocations_from_excel db sheets tm false).2.matched).map mk_allocation :=
  ⟨rfl, rfl⟩

/-- C2 (amended): the quantity extractor is total by construction, its result
is a nonnegative integer (the parsed digit group may be zero, as for the title
0x Pack), and when none of the multiplier patterns matches it returns
exactly 1. -/
theorem c2_extract_multiplier_total (t : Str) :
    0 ≤ extract_quantity_multiplier t ∧
      (search_xpack none (lower_str t) = none →
        search_x none (lower_str t) = none →
          search_packx none (lower_str t) = none →
            extract_quantity_multiplier t = 1) := by
  constructor
  · simp only [extract_quantity_multiplier]
    split
    · norm_num
    · split
      · exact Int.natCast_nonneg _
      · split
        · split
          · exact Int.natCast_nonneg _
          · split
            · exact Int.natCast_nonneg _
            · norm_num
        · split
          · exact Int.natCast_nonneg _
          · norm_num
  · intro h1 h2 h3
    simp [extract_quantity_multiplier, h1, h2, h3]

/-- C2 (counterexample): the extractor can return zero, refuting the claimed
lower bound of one. -/
theorem c2_counterexample : ¬ (1 ≤ extract_quantity_multiplier (strOf ("0x Pack"))) := by decide

theorem c2_witness :
    0 ≤ extract_quantity_multiplier (strOf ("Random Item")) ∧
      extract_quantity_multiplier (strOf ("Random Item")) = 1 :=
  ⟨(c2_extract_multiplier_total (strOf ("Random Item"))).1,
   (c2_extract_multiplier_total (strOf ("Random Item"))).2 (by decide) (by decide) (by decide)⟩

/-- C3 (amended): the listed cases hold, and a bare hash-digits token is never
parsed as a multiplier; but digits immediately preceded by a hash are returned
as the multiplier when immediately followed by the letter x. -/
theorem c3_extract_multiplier_cases :
    extract_quantity_multiplier (strOf ("2x Pack")) = 2 ∧
    extract_quantity_multiplier (strOf ("3 Pack Blister")) = 1 ∧
    extract_quantity_multiplier (strOf ("Packs x 5")) = 5 ∧
    extract_quantity_multiplier (strOf ("Random Item")) = 1 ∧
    extract_quantity_multiplier (strOf ("#11")) = 1 ∧
    extract_quantity_multiplier (strOf ("1x Pack - Item #11")) = 1 := by decide

/-- C3 (counterexample): in the title consisting of a hash followed by 11x,
the digits 11 occur only immediately preceded by the hash character, yet the
extractor returns 11 as the multiplier. -/
theorem c3_counterexample : extract_quantity_multiplier (strOf ("#11x")) = 11 := by decide

/-- C4 (amended): in the folded modes (case_insensitive, aggressive, custom),
whenever the curated metadata of a report row's normalized key carries a
non-empty override name, the emitted listing title is that override verbatim;
in verbatim mode curated metadata is not consulted at all. -/
theorem c4_override_display_title (db : Db) (gb inc : Bool) (mode : String)
    (hm : mode = ("case_insensitive") ∨ mode = ("aggressive") ∨ mode = ("custom"))
    (r : ReportRow) (hr : r ∈ get_item_counts db gb inc mode)
    (n : Str) (hn : r.normalized_name = some n)
    (img : ProductImage) (himg : find_image db.product_images n = some img)
    (d : Str) (hd : img.description = some d) (hne : d.isEmpty = false) :
    r.listing_title = d := by
  have hrec : recognized_modes.contains mode = true := by
    rcases hm with h | h | h <;> subst h <;> decide
  have hex : ¬ mode = ("exact") := by
    rcases hm with h | h | h <;> subst h <;> decide
  simp only [get_item_counts] at hr
  rw [if_pos hrec] at hr
  rw [if_neg hex] at hr
  rcases List.mem_map.1 ((mem_ins_sort _ _ _).1 hr) with ⟨kq, hkq, rfl⟩
  have hn' : kq.1.1 = n := by simpa [build_report_row] using hn
  subst hn'
  simp [build_report_row, himg, hd, hne]

/-- C4 (counterexample): in verbatim mode a group whose normalized key (the
raw title) has a curated override name still displays the raw title, not the
override. -/
theorem c4_counterexample :
    (get_item_counts overrideDb false false ("exact")).map (fun r => r.listing_title) =
        [strOf ("Foo")] ∧
      (find_image overrideDb.product_images (strOf ("Foo"))).map (fun img => img.description) =
        some (some (strOf ("Bar"))) ∧
      strOf ("Foo") ≠ strOf ("Bar") := by decide

theorem c4_witness :
    ({ listing_title := strOf ("Cool Name"), quantity_sold := 1, buyer_name := none,
       set_name := some (strOf ("Phantasmal Flames")), image_url := none, unit_cost := 0,
       normalized_name := some (strOf ("phantasmal flames pack")) } : ReportRow).listing_title =
      strOf ("Cool Name") :=
  c4_override_display_title curatedDb false false ("custom") (Or.inr (Or.inr rfl)) _ (by decide)
    (strOf ("phantasmal flames pack")) rfl
    { normalized_item_name := strOf ("phantasmal flames pack"), description := some (strOf ("Cool Name")) }
    (by decide) (strOf ("Cool Name")) rfl (by decide)

theorem import_step_over (db : Db) (invd : List (Str × Int)) (invn : List Str) (owner : Str)
    (st : ImportState) (r : XlsRow)
    (h : ∀ o ∈ st.over_allocated, Dec.ofInt o.available_quantity < o.total_allocated) :
    ∀ o ∈ (import_step db invd invn owner st r).over_allocated,
      Dec.ofInt o.available_quantity < o.total_allocated := by
  intro o ho
  unfold import_step at ho
  cases hi : r.item_name with
  | none => rw [hi] at ho; exact h o ho
  | some raw =>
    rw [hi] at ho
    dsimp only at ho
    split at ho
    · exact h o ho
    · split at ho
      · next matched_name heq =>
          split at ho
          · next hcum =>
              dsimp only at ho
              rcases List.mem_append.1 ho with hold | hnew
              · exact h o hold
              · rcases List.mem_singleton.1 hnew with rfl
                exact hcum
          · exact h o ho
      · exact h o ho

theorem import_rows_over (db : Db) (invd : List (Str × Int)) (invn : List Str) (owner : Str) :
    ∀ (rows : List XlsRow) (st : ImportState),
      (∀ o ∈ st.over_allocated, Dec.ofInt o.available_quantity < o.total_allocated) →
      ∀ o ∈ (rows.foldl (import_step db invd invn owner) st).over_allocated,
        Dec.ofInt o.available_quantity < o.total_allocated := by
  intro rows
  induction rows with
  | nil => intro st h; simpa using h
  | cons r rest ih =>
    intro st h
    simp only [List.foldl_cons]
    exact ih _ (import_step_over db invd invn owner st r h)

theorem import_sheets_over (db : Db) (invd : List (Str × Int)) (invn : List Str) :
    ∀ (sheets : List XlsSheet) (st : ImportState),
      (∀ o ∈ st.over_allocated, Dec.ofInt o.available_quantity < o.total_allocated) →
      ∀ o ∈ (sheets.foldl
          (fun acc sh => sh.rows.foldl (import_step db invd invn sh.owner) acc) st).over_allocated,
        Dec.ofInt o.available_quantity < o.total_allocated := by
  intro sheets
  induction sheets with
  | nil => intro st h; simpa using h
  | cons sh rest ih =>
    intro st h
    simp only [List.foldl_cons]
    exact ih _ (import_rows_over db invd invn sh.owner sh.rows st h)

/-- C8 (amended): a worksheet row whose cumulative allocated quantity exceeds
the item's available quantity is reported in the over_allocated summary (with
its recorded total strictly above the available quantity) and is excluded from
the inserted allocations: the persisted allocations are exactly those built
from the matched rows. The import itself continues and does not fail; the
rejected quantity still counts toward the cumulative total used to check later
rows. -/
theorem c8_over_allocation_soft (db : Db) (sheets : List XlsSheet) (tm : String) :
    (∀ o ∈ (import_allocations_from_excel db sheets tm false).2.over_allocated,
        Dec.ofInt o.available_quantity < o.total_allocated) ∧
      (import_allocations_from_excel db sheets tm false).1 =
        ((import_allocations_from_excel db sheets tm false).2.matched).map mk_allocation := by
  constructor
  · intro o ho
    simp only [import_allocations_from_excel] at ho
    exact import_sheets_over _ _ _ sheets {} (by intro o' ho'; simp at ho') o ho
  · rfl

/-- C8 (counterexample): allocating three plus three units of an item with
five available reports the second row as over-allocated, and that row is not
persisted: only the first three-unit allocation is inserted. -/
theorem c8_counterexample :
    ((import_allocations_from_excel sleeveDb overSheets ("custom") false).2.over_allocated).map
        (fun o => (o.inventory_name, o.total_allocated, o.available_quantity)) =
      [(strOf ("Phantasmal Flames Sleeve"), (6 : Dec), (5 : Int))] ∧
    (import_allocations_from_excel sleeveDb overSheets ("custom") false).1 =
      [{ normalized_item_name := strOf ("Phantasmal Flames Sleeve"), owner := strOf ("Cihan"),
         allocated_quantity := 3, unit_cost := 2, excel_item_name := strOf ("Phantasmal Flames Sleeve") }] := by
  decide

theorem c8_witness :
    Dec.ofInt (5 : Int) < ({ num := 6, den := 1 } : Dec) :=
  (c8_over_allocation_soft sleeveDb overSheets ("custom")).1
    { excel_name := strOf ("Phantasmal Flames Sleeve")
      inventory_name := strOf ("Phantasmal Flames Sleeve")
      owner := strOf ("Cihan")
      allocated_quantity := 3
      available_quantity := 5
      total_allocated := { num := 6, den := 1 }
      unit_cost := 2 }
    (by decide)

theorem row_action_some (inc : Bool) (src : Str) (db : List Transaction) (r : RawRow)
    (t : Transaction) (h : row_action inc src db r = some t) :
    ∃ row, validate_row r = some row ∧ t = mk_transaction row src := by
  unfold row_action at h
  cases hv : validate_row r with
  | none => rw [hv] at h; exact absurd h (by simp)
  | some row =>
    rw [hv] at h
    dsimp only at h
    refine ⟨row, rfl, ?_⟩
    by_cases h1 : (row.order_id.isEmpty || row.listing_title.isEmpty) = true
    · rw [if_pos h1] at h; exact absurd h (by simp)
    · rw [if_neg h1] at h
      by_cases h2 : (!inc && !is_sale_row row) = true
      · rw [if_pos h2] at h; exact absurd h (by simp)
      · rw [if_neg h2] at h
        by_cases h3 : db.any (fun t => decide (t.order_id = row.order_id)) = true
        · rw [if_pos h3] at h; exact absurd h (by simp)
        · rw [if_neg h3] at h
          exact (Option.some.inj h).symm

theorem ingest_rows_mono (inc : Bool) (src : Str) :
    ∀ (rows : List RawRow) (db : List Transaction) (t : Transaction),
      t ∈ db → t ∈ (ingest_rows inc src db rows).1 := by
  intro rows
  induction rows with
  | nil => intro db t ht; simpa [ingest_rows] using ht
  | cons r rest ih =>
    intro db t ht
    simp only [ingest_rows]
    cases h : row_action inc src db r with
    | none =>
      dsimp only
      exact ih db t ht
    | some tx =>
      dsimp only
      exact ih (db ++ [tx]) t (List.mem_append_left _ ht)

theorem row_action_dup (inc : Bool) (src : Str) (db : List Transaction) (r : RawRow)
    (row : CsvRow) (hv : validate_row r = some row)
    (h1 : row.order_id.isEmpty = false) (h2 : row.listing_title.isEmpty = false)
    (h3 : (inc || is_sale_row row) = true)
    (hnone : row_action inc src db r = none) :
    ∃ t ∈ db, t.order_id = row.order_id := by
  unfold row_action at hnone
  rw [hv] at hnone
  have h4 : (!inc && !is_sale_row row) = false := by
    cases hi : inc <;> cases hs : is_sale_row row <;> simp_all
  simp only [h1, h2, h4, Bool.or_self, Bool.false_eq_true, if_false] at hnone
  split at hnone
  · next hany =>
      obtain ⟨t, htdb, hteq⟩ := List.any_eq_true.1 hany
      exact ⟨t, htdb, of_decide_eq_true hteq⟩
  · simp at hnone

theorem ingest_rows_ids (inc : Bool) (src : Str) :
    ∀ (rows : List RawRow) (db : List Transaction) (r : RawRow), r ∈ rows →
      ∀ row : CsvRow, validate_row r = some row → row.order_id.isEmpty = false →
        row.listing_title.isEmpty = false → (inc || is_sale_row row) = true →
        ∃ t ∈ (ingest_rows inc src db rows).1, t.order_id = row.order_id := by
  intro rows
  induction rows with
  | nil => intro db r hr; simp at hr
  | cons r0 rest ih =>
    intro db r hr row hv h1 h2 h3
    rcases List.mem_cons.1 hr with rfl | hr
    · simp only [ingest_rows]
      cases h : row_action inc src db r with
      | none =>
        obtain ⟨t, htdb, hteq⟩ := row_action_dup inc src db r row hv h1 h2 h3 h
        dsimp only
        exact ⟨t, ingest_rows_mono inc src rest db t htdb, hteq⟩
      | some tx =>
        obtain ⟨row', hv', rfl⟩ := row_action_some inc src db r tx h
        rw [hv] at hv'
        obtain rfl := Option.some.inj hv'
        dsimp only
        exact ⟨mk_transaction row src,
          ingest_rows_mono inc src rest (db ++ [mk_transaction row src]) _ (by simp), rfl⟩
    · simp only [ingest_rows]
      cases h : row_action inc src db r0 with
      | none =>
        dsimp only
        exact ih db r hr row hv h1 h2 h3
      | some tx =>
        dsimp only
        exact ih (db ++ [tx]) r hr row hv h1 h2 h3

theorem ingest_rows_all_dup (inc : Bool) (src : Str) :
    ∀ (rows : List RawRow) (db : List Transaction),
      (∀ r ∈ rows, ∀ row : CsvRow, validate_row r = some row →
        row.order_id.isEmpty = false → row.listing_title.isEmpty = false →
        (inc || is_sale_row row) = true → ∃ t ∈ db, t.order_id = row.order_id) →
      ingest_rows inc src db rows = (db, 0, rows.length) := by
  intro rows
  induction rows with
  | nil => intro db _; rfl
  | cons r rest ih =>
    intro db h
    have hact : row_action inc src db r = none := by
      unfold row_action
      cases hv : validate_row r with
      | none => rfl
      | some row =>
        by_cases h1 : (row.order_id.isEmpty || row.listing_title.isEmpty) = true
        · simp [h1]
        · by_cases h2 : (!inc && !is_sale_row row) = true
          · simp [h1, h2]
          · have h1' : row.order_id.isEmpty = false ∧ row.listing_title.isEmpty = false := by
              cases ho : row.order_id.isEmpty <;> cases hl : row.listing_title.isEmpty <;>
                simp_all
            have h3 : (inc || is_sale_row row) = true := by
              cases hi : inc with
              | true => rfl
              | false =>
                cases hs : is_sale_row row with
                | true => rfl
                | false => rw [hi, hs] at h2; simp at h2
            obtain ⟨t, htdb, hteq⟩ := h r (List.mem_cons_self _ _) row hv h1'.1 h1'.2 h3
            have hany : db.any (fun t => decide (t.order_id = row.order_id)) = true :=
              List.any_eq_true.2 ⟨t, htdb, decide_eq_true hteq⟩
            simp [h1, h2, hany]
    simp only [ingest_rows, hact]
    rw [ih db (fun r' hr' row hv h1 h2 h3 => h r' (List.mem_cons_of_mem _ hr') row hv h1 h2 h3)]
    simp

/-- C6: re-ingesting the same rows with the same flag leaves the persisted
table unchanged, loads zero rows, and reports every row of the second pass as
skipped, so the cumulative loaded-row count equals that of a single pass. -/
theorem c6_ingest_idempotent (inc : Bool) (src : Str) (db : List Transaction)
    (rows : List RawRow) :
    (ingest_rows inc src (ingest_rows inc src db rows).1 rows).1 = (ingest_rows inc src db rows).1 ∧
      (ingest_rows inc src (ingest_rows inc src db rows).1 rows).2.1 = 0 ∧
      (ingest_rows inc src (ingest_rows inc src db rows).1 rows).2.2 = rows.length := by
  have h := ingest_rows_all_dup inc src rows (ingest_rows inc src db rows).1
    (fun r hr row hv h1 h2 h3 => ingest_rows_ids inc src rows db r hr row hv h1 h2 h3)
  rw [h]
  exact ⟨rfl, rfl, rfl⟩

/-- C7: every persisted transaction carries quantity equal to the validated
row quantity times the title-derived multiplier, in exact integer arithmetic;
a blank or absent quantity parses to one; and the two end-to-end cases persist
quantity two each. -/
theorem c7_resolved_quantity :
    (∀ (inc : Bool) (src : Str) (db : List Transaction) (r : RawRow) (row : CsvRow)
        (t : Transaction), validate_row r = some row → row_action inc src db r = some t →
        t.quantity_sold = row.quantity_sold * extract_quantity_multiplier row.listing_title) ∧
      parse_quantity none = some 1 ∧
      parse_quantity (some (strOf (" "))) = some 1 ∧
      (ingest_rows false (strOf ("f")) [] [c7_raw_a]).1.map (fun t => t.quantity_sold) = [2] ∧
      (ingest_rows false (strOf ("f")) [] [c7_raw_b]).1.map (fun t => t.quantity_sold) = [2] := by
  refine ⟨?_, by decide, by decide, by decide, by decide⟩
  intro inc src db r row t hv ha
  obtain ⟨row', hv', rfl⟩ := row_action_some inc src db r t ha
  rw [hv] at hv'
  obtain rfl := Option.some.inj hv'
  rfl

theorem c7_witness :
    (mk_transaction c7_csv_a (strOf ("f"))).quantity_sold =
      c7_csv_a.quantity_sold * extract_quantity_multiplier c7_csv_a.listing_title :=
  c7_resolved_quantity.1 false (strOf ("f")) [] c7_raw_a c7_csv_a
    (mk_transaction c7_csv_a (strOf ("f"))) (by decide) (by decide)

theorem snk_pfx : ∀ (m w : Str), marker_mid_ok m = true → snkGo .out (m ++ w) = m ++ snkGo .out w := by
  intro m
  induction m with
  | nil => intro w _; simp
  | cons c rest ih =>
    intro w h
    unfold marker_mid_ok at h
    by_cases hc : marker_char_ok c = true
    · rw [if_pos hc] at h
      have hkey : isKeyChar c = true := band_left hc
      simp only [List.cons_append, snkGo, hkey, if_true, List.append_eq]
      rw [ih w h]
    · rw [if_neg hc] at h
      by_cases hsp : c = ' '
      · rw [if_pos hsp] at h
        cases rest with
        | nil => simp at h
        | cons d rest2 =>
          dsimp only at h
          obtain ⟨hd, hrest⟩ := band_split h
          have hkd : isKeyChar d = true := band_left hd
          subst hsp
          have hks : isKeyChar ' ' = false := by decide
          simp only [List.cons_append, snkGo, hks, Bool.false_eq_true, if_false, List.append_eq]
          rw [if_pos hkd]
          have hih := ih w hrest
          simp only [List.cons_append, snkGo, hkd, if_true, List.append_eq] at hih
          exact congrArg (List.cons ' ') hih
      · rw [if_neg hsp] at h; simp at h

theorem snk_decomp : ∀ (u : Str) (st : SnkState) (m v : Str), marker_ok m = true →
    ∃ u2 v2, snkGo st (u ++ m ++ v) = u2 ++ m ++ v2 := by
  intro u
  induction u with
  | nil =>
    intro st m v hm
    cases m with
    | nil => simp [marker_ok] at hm
    | cons c rest =>
      obtain ⟨hc, hmid⟩ := band_split (by simpa [marker_ok] using hm)
      have hkey : isKeyChar c = true := band_left hc
      have h1 : snkGo st (((c :: rest) : Str) ++ v) = snkGo .out ((c :: rest) ++ v) := by
        cases st <;> simp [snkGo, hkey]
      refine ⟨[], snkGo .out v, ?_⟩
      simpa using h1.trans (snk_pfx (c :: rest) v hmid)
  | cons c u' ih =>
    intro st m v hm
    by_cases hkey : isKeyChar c = true
    · obtain ⟨u2, v2, he⟩ := ih .out m v hm
      have he' : snkGo .out (u' ++ (m ++ v)) = u2 ++ (m ++ v2) := by
        simpa [List.append_assoc] using he
      exact ⟨c :: u2, v2, by simp [snkGo, hkey, List.append_assoc, he']⟩
    · cases st with
      | out =>
        obtain ⟨u2, v2, he⟩ := ih .run m v hm
        have he' : snkGo .run (u' ++ (m ++ v)) = u2 ++ (m ++ v2) := by
          simpa [List.append_assoc] using he
        exact ⟨' ' :: u2, v2, by simp [snkGo, hkey, List.append_assoc, he']⟩
      | run =>
        obtain ⟨u2, v2, he⟩ := ih .run m v hm
        have he' : snkGo .run (u' ++ (m ++ v)) = u2 ++ (m ++ v2) := by
          simpa [List.append_assoc] using he
        exact ⟨u2, v2, by simp [snkGo, hkey, List.append_assoc, he']⟩

theorem cw_pfx : ∀ (m w : Str), marker_mid_ok m = true → cwGo .tok (m ++ w) = m ++ cwGo .tok w := by
  intro m
  induction m with
  | nil => intro w _; simp
  | cons c rest ih =>
    intro w h
    unfold marker_mid_ok at h
    by_cases hc : marker_char_ok c = true
    · rw [if_pos hc] at h
      have hnw : isWsChar c = false := by
        have := band_right hc
        simpa using this
      simp only [List.cons_append, cwGo, hnw, Bool.false_eq_true, if_false, List.append_eq]
      rw [ih w h]
    · rw [if_neg hc] at h
      by_cases hsp : c = ' '
      · rw [if_pos hsp] at h
        cases rest with
        | nil => simp at h
        | cons d rest2 =>
          dsimp only at h
          obtain ⟨hd, hrest⟩ := band_split h
          have hnd : isWsChar d = false := by
            have := band_right hd
            simpa using this
          subst hsp
          have hws : isWsChar ' ' = true := by decide
          simp only [List.cons_append, cwGo, hws, if_true, List.append_eq]
          rw [if_neg (by simp [hnd])]
          have hih := ih w hrest
          simp only [List.cons_append, cwGo, hnd, Bool.false_eq_true, if_false, List.append_eq] at hih
          exact congrArg (List.cons ' ') hih
      · rw [if_neg hsp] at h; simp at h

theorem cw_contains : ∀ (p : Str) (st : CwState) (m q : Str), marker_ok m = true →
    contains_sub (cwGo st (p ++ m ++ q)) m = true := by
  intro p
  induction p with
  | nil =>
    intro st m q hm
    cases m with
    | nil => simp [marker_ok] at hm
    | cons c rest =>
      obtain ⟨hc, hmid⟩ := band_split (by simpa [marker_ok] using hm)
      have hnw : isWsChar c = false := by
        have := band_right hc
        simpa using this
      have htok : contains_sub (cwGo .tok ((c :: rest) ++ q)) (c :: rest) = true := by
        rw [cw_pfx (c :: rest) q hmid]
        simpa using contains_of_decomp [] (c :: rest) (cwGo .tok q)
      cases st with
      | start =>
        simp only [List.nil_append]
        have h1 : cwGo .start (((c :: rest) : Str) ++ q) = cwGo .tok ((c :: rest) ++ q) := by
          simp [cwGo, hnw]
        rw [h1]
        exact htok
      | tok => simpa using htok
      | brk =>
        have h1 : cwGo .brk (((c :: rest) : Str) ++ q) = ' ' :: cwGo .tok ((c :: rest) ++ q) := by
          simp [cwGo, hnw]
        simp only [List.nil_append] at h1 ⊢
        rw [h1]
        exact contains_cons_of _ htok
  | cons c p' ih =>
    intro st m q hm
    by_cases hws : isWsChar c = true
    · cases st with
      | start =>
        have h1 : cwGo .start ((c :: p') ++ m ++ q) = cwGo .start (p' ++ m ++ q) := by
          simp [cwGo, hws]
        rw [h1]; exact ih .start m q hm
      | tok =>
        have h1 : cwGo .tok ((c :: p') ++ m ++ q) = cwGo .brk (p' ++ m ++ q) := by
          simp [cwGo, hws]
        rw [h1]; exact ih .brk m q hm
      | brk =>
        have h1 : cwGo .brk ((c :: p') ++ m ++ q) = cwGo .brk (p' ++ m ++ q) := by
          simp [cwGo, hws]
        rw [h1]; exact ih .brk m q hm
    · cases st with
      | brk =>
        have h1 : cwGo .brk ((c :: p') ++ m ++ q) = ' ' :: c :: cwGo .tok (p' ++ m ++ q) := by
          simp [cwGo, hws]
        rw [h1]
        exact contains_cons_of _ (contains_cons_of _ (ih .tok m q hm))
      | start =>
        have h1 : cwGo .start ((c :: p') ++ m ++ q) = c :: cwGo .tok (p' ++ m ++ q) := by
          simp [cwGo, hws]
        rw [h1]
        exact contains_cons_of _ (ih .tok m q hm)
      | tok =>
        have h1 : cwGo .tok ((c :: p') ++ m ++ q) = c :: cwGo .tok (p' ++ m ++ q) := by
          simp [cwGo, hws]
        rw [h1]
        exact contains_cons_of _ (ih .tok m q hm)

theorem contains_lower_of (s m : Str) (hm : lower_str m = m) (h : contains_sub s m = true) :
    contains_sub (lower_str s) m = true := by
  obtain ⟨u, v, rfl⟩ := contains_sub_exists s m h
  unfold lower_str at hm ⊢
  rw [List.map_append, List.map_append, hm]
  exact contains_of_decomp _ _ _

theorem marker_preserved (m : Str) (hok : marker_ok m = true) (hl : lower_str m = m)
    (ha : ascii_ignore m = m) (s : Str) (h : contains_sub s m = true) :
    contains_sub (lower_str (collapse_ws (sub_nonkey (ascii_ignore s)))) m = true := by
  obtain ⟨u, v, rfl⟩ := contains_sub_exists s m h
  have h1 : ascii_ignore (u ++ m ++ v) = ascii_ignore u ++ m ++ ascii_ignore v := by
    unfold ascii_ignore at ha ⊢
    rw [List.filter_append, List.filter_append, ha]
  rw [h1]
  obtain ⟨u2, v2, h2⟩ := snk_decomp (ascii_ignore u) .out m (ascii_ignore v) hok
  unfold sub_nonkey
  rw [h2]
  unfold collapse_ws
  exact contains_lower_of _ _ hl (cw_contains u2 .start m v2 hok)

theorem markers_good :
    ∀ m ∈ giveaway_markers, marker_ok m = true ∧ lower_str m = m ∧ ascii_ignore m = m := by
  decide

/-- C5: every title whose folded text contains a giveaway marker normalizes,
in aggressive mode, to the literal key random asian pack; consequently all
such titles share one grouping key, and four giveaway rows of quantity one
each aggregate into a single report row of quantity four. -/
theorem c5_giveaway_folding :
    (∀ t : Str,
        giveaway_markers.any (fun x => contains_sub (lower_str (collapse_ws t)) x) = true →
        normalize_title t ("aggressive") = strOf ("random asian pack")) ∧
      get_item_counts giveawayDb false true ("aggressive") =
        [{ listing_title := strOf ("random asian pack"), quantity_sold := 4, buyer_name := none,
           set_name := none, image_url := none, unit_cost := 0,
           normalized_name := some (strOf ("random asian pack")) }] := by
  constructor
  · intro t h
    rw [List.any_eq_true] at h
    obtain ⟨m, hmem, hcont⟩ := h
    obtain ⟨hok, hl, ha⟩ := markers_good m hmem
    have hpres := marker_preserved m hok hl ha (lower_str (collapse_ws t)) hcont
    unfold normalize_title
    rw [if_neg (by decide), if_neg (by decide), if_pos (by decide)]
    unfold apply_custom_rules
    rw [if_pos (List.any_eq_true.2 ⟨m, hmem, hpres⟩)]
    decide
  · decide

theorem c5_witness :
    normalize_title (strOf ("FREE stuff")) ("aggressive") = strOf ("random asian pack") :=
  c5_giveaway_folding.1 (strOf ("FREE stuff")) (by decide)
